import Mathlib

/-!
Verification of the in-page chat widget agent (`browser_extension/content.js`).

The DOM and network are modelled as inputs: a page is a selector-query
function plus the list of icon/interactive elements the heuristic pass
inspects; the backend reply is a `FetchOutcome` value.  All algorithmic
code (name cleaning, the two detection passes, the observer/timeout state
machine, drag clamping, paste handling, send/error handling, HTML
escaping) is translated function-by-function from the source.
-/

namespace Chatbot

/-- JS `String.prototype.trim` modelled on ASCII whitespace:
drop leading and trailing whitespace characters. -/
def trimList (cs : List Char) : List Char :=
  ((cs.dropWhile Char.isWhitespace).reverse.dropWhile Char.isWhitespace).reverse

/-- `s.trim()` on strings. -/
def trimString (s : String) : String := ⟨trimList s.data⟩

/-- `s.toLowerCase()` character-wise. -/
def toLowerList (cs : List Char) : List Char := cs.map Char.toLower

/-- Case-sensitive test that `needle` is a prefix of the second list. -/
def startsWithList : List Char → List Char → Bool
  | [], _ => true
  | _ :: _, [] => false
  | n :: ns, c :: cs => n == c && startsWithList ns cs

/-- JS `String.prototype.includes`: case-sensitive substring test,
`containsSub needle hay`. -/
def containsSub (needle : List Char) : List Char → Bool
  | [] => startsWithList needle []
  | c :: cs => startsWithList needle (c :: cs) || containsSub needle cs

/-- `hay.includes(needle)` (case-sensitive, as in JS). -/
def containsStr (hay needle : String) : Bool := containsSub needle.data hay.data

/-- Case-insensitive substring test (both sides lowered). -/
def containsCI (hay needle : String) : Bool :=
  containsSub (toLowerList needle.data) (toLowerList hay.data)

/-- The alternatives of the regex `/welcome|hello|hi|mr\.|ms\.|user:/gi`
in `cleanName` (content.js line 155), in source order. -/
def greetingPatterns : List (List Char) :=
  [ "welcome".data, "hello".data, "hi".data, "mr.".data, "ms.".data, "user:".data]

/-- Case-insensitive match of a lowercase pattern at the head of the input;
returns the remaining input on success. -/
def matchPat : List Char → List Char → Option (List Char)
  | [], cs => some cs
  | _ :: _, [] => none
  | p :: ps, c :: cs => if c.toLower = p then matchPat ps cs else none

/-- Try each regex alternative at the current position, in source order
(the JS regex engine picks the first alternative that matches at the
leftmost position). -/
def tryPatterns : List (List Char) → List Char → Option (List Char)
  | [], _ => none
  | p :: ps, cs =>
    match matchPat p cs with
    | some rest => some rest
    | none => tryPatterns ps cs

/-- The scan underlying `text.replace(/welcome|hello|hi|mr\.|ms\.|user:/gi, '')`,
written with an explicit fuel so that it is structurally recursive; a
successful `tryPatterns` consumes at least one character, so fuel equal
to the input length is always enough (`stripGreetingsAux_fuel`). -/
def stripGreetingsAux : Nat → List Char → List Char
  | _, [] => []
  | 0, l => l
  | fuel + 1, c :: cs =>
    match tryPatterns greetingPatterns (c :: cs) with
    | some rest => stripGreetingsAux fuel rest
    | none => c :: stripGreetingsAux fuel cs

/-- `text.replace(/welcome|hello|hi|mr\.|ms\.|user:/gi, '')`
(content.js line 155): a left-to-right scan that removes each
non-overlapping case-insensitive match of one of the alternatives and
does not rescan the produced text. -/
def stripGreetings (l : List Char) : List Char := stripGreetingsAux l.length l

/-- `cleanName` (content.js lines 153-156): remove greeting/honorific
tokens, then trim. -/
def cleanName (s : String) : String := ⟨trimList (stripGreetings s.data)⟩

/-! ## HTML escaping (content.js 626-630)

`escapeHtml` assigns the text to `div.textContent` and reads back
`div.innerHTML`; serializing a text node replaces `&`, `<`, `>` by the
entities `&amp;`, `&lt;`, `&gt;` and leaves every other character as is. -/

def escapeCharHtml (c : Char) : List Char :=
  if c = '&' then "&amp;".data
  else if c = '<' then "&lt;".data
  else if c = '>' then "&gt;".data
  else [c]

def escapeList (cs : List Char) : List Char := (cs.map escapeCharHtml).flatten

/-- `escapeHtml` (content.js 626-630). -/
def escapeHtml (s : String) : String := ⟨escapeList s.data⟩

/-- The HTML text-node parse of a serialized string: decoding the three
entities produced by a text-node serialization.  This is what a browser
displays for markup-free content. -/
def unescapeList : List Char → List Char
  | [] => []
  | '&' :: 'a' :: 'm' :: 'p' :: ';' :: cs => '&' :: unescapeList cs
  | '&' :: 'l' :: 't' :: ';' :: cs => '<' :: unescapeList cs
  | '&' :: 'g' :: 't' :: ';' :: cs => '>' :: unescapeList cs
  | c :: cs => c :: unescapeList cs

def unescapeHtml (s : String) : String := ⟨unescapeList s.data⟩

/-- content.js line 560: a user message's text is inserted as
`<div>${escapeHtml(text)}</div>`. -/
def renderUserText (text : String) : String :=
  "<div>" ++ escapeHtml text ++ "</div>"

/-! ## Identity detection (content.js 50-156)

The DOM is an input: a page is a function `q` from a CSS selector to the
`innerText` of the first element it matches (`none` when no element
matches), together with the list of icon/interactive elements the
heuristic pass iterates over.  For each such element the texts of its up
to three ancestor containers — cloned with the element itself removed
(content.js 114-124) — are likewise inputs. -/

/-- The fixed priority-ordered selector list (content.js 79-83). -/
def selectors : List String :=
  [ "#lblUserID", "#lblUserName", "#userName", ".user-name", ".profile-name",
   "span[id*=\"user\"]", "span[class*=\"user\"]", "#welcomeUser",
   ".header-user", ".login-name", "a[href*=\"profile\"]", ".logged-in-user"]

/-- One iteration of the selector loop (content.js 86-94) on an element
whose `innerText` is `t`: the raw trimmed text must have length > 2,
and the cleaned name must be non-empty (JS truthiness) and must not
contain the case-sensitive substring `"Log"`. -/
def selectorElementResolves (t : String) : Option String :=
  if 2 < (trimString t).length then
    let name := cleanName t
    if name != "" && !containsStr name "Log" then some name else none
  else none

/-- `q sel` composed with the element check; `none` both when no element
matches the selector and when the matched element fails the check. -/
def selectorResolveAt (q : String → Option String) (sel : String) : Option String :=
  match q sel with
  | none => none
  | some t => selectorElementResolves t

/-- Pass 1 (content.js 85-95): first selector whose element resolves. -/
def selectorScan (q : String → Option String) : List String → Option String
  | [] => none
  | sel :: rest =>
    match selectorResolveAt q sel with
    | some n => some n
    | none => selectorScan q rest

/-- An element of the `i, svg, img, a, button, .fa, .fas, .material-icons`
query (content.js 98), as the heuristic pass reads it. -/
structure IconButton where
  innerText : String
  title : String
  ariaLabel : String
  className : String
  /-- `innerText` of each ancestor container, cloned with the button
  removed, innermost first (content.js 114-126); the loop visits at most
  three of them. -/
  containerTexts : List String
deriving DecidableEq

/-- `btn.innerText || btn.title || btn.getAttribute('aria-label') || ''`
(content.js 100): JS `||` takes the first non-empty string. -/
def effectiveText (b : IconButton) : String :=
  if b.innerText != "" then b.innerText
  else if b.title != "" then b.title
  else b.ariaLabel

/-- The logout-affordance test (content.js 103-109). -/
def isLogoutButton (b : IconButton) : Bool :=
  let lowText : String := ⟨toLowerList (effectiveText b).data⟩
  let classLow : String := ⟨toLowerList b.className.data⟩
  containsStr lowText "logout" || containsStr lowText "sign out" ||
  containsStr classLow "power" || containsStr classLow "logout" ||
  containsStr classLow "sign-out"

/-- JS `String.prototype.split('\n')` on the character list. -/
def splitNl : List Char → List (List Char)
  | [] => [[]]
  | c :: cs =>
    if c = '\n' then [] :: splitNl cs
    else
      match splitNl cs with
      | [] => [[c]]
      | l :: ls => (c :: l) :: ls

/-- The noise filter on a cleaned candidate line (content.js 134-139). -/
def noiseFree (cleaned : String) : Bool :=
  let lc : String := ⟨toLowerList cleaned.data⟩
  cleaned.length < 30 &&
  !containsStr lc "setting" && !containsStr lc "english" &&
  !containsStr lc "tamil" &&
  !(lc == "home" || lc == "help" || lc == "admin" || lc == "user")

/-- The inner line loop (content.js 131-145): first line whose cleaned
form is non-empty and noise-free. -/
def firstCandidateLine : List String → Option String
  | [] => none
  | line :: rest =>
    let cleaned := cleanName line
    if cleaned != "" && noiseFree cleaned then some cleaned
    else firstCandidateLine rest

/-- One ancestor container (content.js 126-145): trim its text, split
into lines, trim each line, keep lines of length > 2, then scan them. -/
def containerCandidate (t : String) : Option String :=
  let lines := ((splitNl (trimList t.data)).map trimList).filter
    (fun l => 2 < l.length)
  firstCandidateLine (lines.map (fun l => (⟨l⟩ : String)))

/-- First `some` in a list of option results. -/
def firstSomeList : List (Option String) → Option String
  | [] => none
  | some x :: _ => some x
  | none :: rest => firstSomeList rest

/-- One icon button (content.js 111-148): if it is a logout affordance,
walk up to three ancestor containers for a candidate line. -/
def buttonCandidate (b : IconButton) : Option String :=
  if isLogoutButton b then
    firstSomeList ((b.containerTexts.take 3).map containerCandidate)
  else none

/-- Pass 2 (content.js 98-149): first icon button that yields a candidate. -/
def heuristicScan : List IconButton → Option String
  | [] => none
  | b :: bs =>
    match buttonCandidate b with
    | some n => some n
    | none => heuristicScan bs

/-- `detectUserOnPage` (content.js 77-151): the selector pass runs first
and returns early; the heuristic pass runs only if it found nothing. -/
def detectUserOnPage (q : String → Option String) (icons : List IconButton) :
    Option String :=
  match selectorScan q selectors with
  | some n => some n
  | none => heuristicScan icons

/-! ## Observation and fallback (content.js 50-75)

`startUserDetection` runs the passes once, attaches a `MutationObserver`
when they fail, and schedules a 5000 ms timer.  Each observer callback
and the timer callback is an event; a mutation event carries the page
content the re-run of the passes sees. -/

/-- The argument of `setTimeout` in `startUserDetection` (content.js 74). -/
def detectionTimeoutMs : Nat := 5000

structure DetState where
  user : Option String
  /-- whether the mutation observer is attached. -/
  observing : Bool
  /-- how many times a user has been resolved (`handleLogin` calls). -/
  resolutions : Nat
deriving DecidableEq

inductive DetEvent where
  | mutation (q : String → Option String) (icons : List IconButton)
  | timeout

/-- `startUserDetection` entry (content.js 51-65): run the passes
immediately; only when they fail is the observer attached. -/
def startDetection (q : String → Option String) (icons : List IconButton) :
    DetState :=
  match detectUserOnPage q icons with
  | some n => ⟨some n, false, 1⟩
  | none => ⟨none, true, 0⟩

/-- The observer callback (content.js 55-63) and the timer callback
(content.js 68-74). -/
def detStep (st : DetState) (e : DetEvent) : DetState :=
  match e with
  | .mutation q icons =>
    if !st.observing then st
    else
      match st.user with
      | some _ => { st with observing := false }
      | none =>
        match detectUserOnPage q icons with
        | some n => ⟨some n, false, st.resolutions + 1⟩
        | none => st
  | .timeout =>
    match st.user with
    | some _ => { st with observing := false }
    | none => ⟨some "Guest", false, st.resolutions + 1⟩

/-- A whole detection run: the initial synchronous attempt followed by
the delivered events. -/
def runDetection (q0 : String → Option String) (icons0 : List IconButton)
    (events : List DetEvent) : DetState :=
  events.foldl detStep (startDetection q0 icons0)

/-! ## Session state and its mutating operations -/

inductive Sender where
  | user
  | bot
deriving DecidableEq

/-- An entry of `state.messages` (content.js 526). -/
structure Message where
  sender : Sender
  text : String
  image : Option String
deriving DecidableEq

/-- `state.position`: corner-anchored (`bottom`/`right` set, the default
of content.js line 8) or absolute `top`/`left` after a drag. -/
inductive WidgetPos where
  | corner (bottom right : Int)
  | absolute (top left : Int)
deriving DecidableEq

/-- The persisted snapshot `state` (content.js 4-9). -/
structure SessionState where
  isOpen : Bool
  messages : List Message
  user : Option String
  position : WidgetPos
deriving DecidableEq

/-- The session plus the detector's mode: `scanning = true` while
`startUserDetection` is looking for a user. -/
structure WidgetState where
  session : SessionState
  scanning : Bool
deriving DecidableEq

/-- The state-mutating handlers of content.js: `handleLogin` (327-345),
`handleLogout` (347-360), the `state.messages.push` of `addMessage`
(524-527) and `showWelcomeMessage` (409), `toggleChat` (450-466), and
the position write of `dragEnd` (312-318). -/
inductive Op where
  | login (name : String)
  | logout
  | pushMessage (m : Message)
  | toggle
  | setPosition (p : WidgetPos)

def applyOp (st : WidgetState) : Op → WidgetState
  | .login nameInput =>
    let name := if nameInput = "" then "Guest" else nameInput
    ⟨{ st.session with user := some name }, false⟩
  | .logout =>
    ⟨{ st.session with user := none, messages := [], isOpen := true }, true⟩
  | .pushMessage m =>
    ⟨{ st.session with messages := st.session.messages ++ [m] }, st.scanning⟩
  | .toggle =>
    ⟨{ st.session with isOpen := !st.session.isOpen }, st.scanning⟩
  | .setPosition p =>
    ⟨{ st.session with position := p }, st.scanning⟩

/-- The "reset to empty" condition: no messages and no identity. -/
def emptySession (s : SessionState) : Prop := s.messages = [] ∧ s.user = none

instance (s : SessionState) : Decidable (emptySession s) := by
  unfold emptySession; infer_instance

/-! ## Dragging (content.js 255-325) -/

/-- The values captured at `dragStart` (content.js 275-278) together with
the window and element dimensions read during `drag`. -/
structure DragCtx where
  initialLeft : Int
  initialTop : Int
  startX : Int
  startY : Int
  innerWidth : Int
  innerHeight : Int
  elWidth : Int
  elHeight : Int
deriving DecidableEq

/-- The `drag` move handler (content.js 286-304): clamp
`initial + pointer delta` to `[0, window size − element size]` on both
axes and write only `element.style` — it emits no StateStore write.
Result: the new `(left, top)` style offsets and the emitted snapshot
writes. -/
def dragHandler (ctx : DragCtx) (clientX clientY : Int) :
    (Int × Int) × List SessionState :=
  let newLeft := ctx.initialLeft + (clientX - ctx.startX)
  let newTop := ctx.initialTop + (clientY - ctx.startY)
  let maxLeft := ctx.innerWidth - ctx.elWidth
  let maxTop := ctx.innerHeight - ctx.elHeight
  ((min (max 0 newLeft) maxLeft, min (max 0 newTop) maxTop), [])

/-- The `dragEnd` handler (content.js 306-320): set `state.position` to
the element's final `(left, top)` style offsets and persist the whole
state once via `saveState()`. -/
def dragEndHandler (st : SessionState) (stylePos : Int × Int) :
    SessionState × List SessionState :=
  let st' := { st with position := WidgetPos.absolute stylePos.2 stylePos.1 }
  (st', [st'])

/-- Folding the move events of a drag gesture: the style position after
each move, with the accumulated store writes. -/
def dragFoldStep (ctx : DragCtx) (acc : (Int × Int) × List SessionState)
    (mv : Int × Int) : (Int × Int) × List SessionState :=
  let r := dragHandler ctx mv.1 mv.2
  (r.1, acc.2 ++ r.2)

/-- A whole drag gesture: the moves, then the release.  `pos0` is the
element's style offset at `dragStart`.  Returns the final session state
and every StateStore write emitted during the gesture, in order. -/
def runDrag (ctx : DragCtx) (pos0 : Int × Int) (st : SessionState)
    (moves : List (Int × Int)) : SessionState × List SessionState :=
  let fin := moves.foldl (dragFoldStep ctx) (pos0, [])
  let e := dragEndHandler st fin.1
  (e.1, fin.2 ++ e.2)

/-! ## Paste handling (content.js 413-433) -/

/-- A `DataTransferItem` of the paste event, with the data-URI its
`FileReader` would produce. -/
structure ClipItem where
  kind : String
  mime : String
  asDataUri : String
deriving DecidableEq

/-- content.js 420: `item.kind === 'file' && item.type.includes('image/')`. -/
def isImageItem (it : ClipItem) : Bool :=
  it.kind == "file" && containsStr it.mime "image/"

/-- `handlePaste` (content.js 415-433): every image file item is read and
becomes the pending image (the last one wins); any other item is skipped
with no effect at all.  Returns the pending image afterwards and whether
any error UI was produced — the handler contains no error path, so the
flag is always `false`. -/
def handlePaste (items : List ClipItem) (pending : Option String) :
    Option String × Bool :=
  (items.foldl (fun p it => if isImageItem it then some it.asDataUri else p)
    pending, false)

/-! ## Sending (content.js 468-545)

The `fetch` to the backend is an input: it either throws (network error)
or yields a parsed `{ success, response }` body. -/

inductive FetchOutcome where
  | netError
  | reply (success : Bool) (response : String)

/-- A DOM node appended to the messages container.  `isError` records
whether the node carries the `tn-error-message` class, which only
`addErrorMessage` (content.js 532-545) adds. -/
structure DomEntry where
  isUser : Bool
  isError : Bool
  text : String
deriving DecidableEq

/-- The fixed text of the `success=false` branch (content.js 515). -/
def errorReplyText : String := "Sorry, I encountered an error. Please try again."

/-- The inline error of the network-error branch (content.js 519); the
leading warning emoji is elided. -/
def netErrorHtml : String :=
  "Unable to connect to the server. Please ensure the chatbot server is running at <a href=\"http://localhost:5000\" target=\"_blank\">http://localhost:5000</a>"

/-- What a send produces: the message log, the pending image, and the DOM
entries appended during the send, in order. -/
structure SendResult where
  messages : List Message
  pending : Option String
  rendered : List DomEntry
deriving DecidableEq

/-- `sendMessage` (content.js 468-522): guards, append the user message,
clear the pending image, then dispatch on the fetch outcome — `success`
appends the response via `addMessage`, `success=false` appends the fixed
error text via `addMessage` (a plain bot message, persisted), and a
thrown fetch calls `addErrorMessage` (an error-classed DOM node, not
persisted). -/
def sendMessage (user : Option String) (msgs : List Message)
    (pending : Option String) (rawInput : String) (outcome : FetchOutcome) :
    SendResult :=
  match user with
  | none => ⟨msgs, pending, []⟩
  | some _ =>
    let message := trimString rawInput
    if message = "" ∧ pending = none then ⟨msgs, pending, []⟩
    else
      let msgs1 := msgs ++ [⟨Sender.user, message, pending⟩]
      let rendered1 : List DomEntry := [⟨true, false, message⟩]
      match outcome with
      | .netError =>
        ⟨msgs1, none, rendered1 ++ [⟨false, true, netErrorHtml⟩]⟩
      | .reply true resp =>
        ⟨msgs1 ++ [⟨Sender.bot, resp, none⟩], none,
          rendered1 ++ [⟨false, false, resp⟩]⟩
      | .reply false _ =>
        ⟨msgs1 ++ [⟨Sender.bot, errorReplyText, none⟩], none,
          rendered1 ++ [⟨false, false, errorReplyText⟩]⟩

/-! ## Occurrence predicate and concrete sample inputs -/

/-- `cs` contains (anywhere, in any letter case) one of the greeting
patterns of `cleanName`'s regex. -/
def HasGreetingOccurrence (cs : List Char) : Prop :=
  ∃ p ∈ greetingPatterns, ∃ a m b : List Char,
    cs = a ++ m ++ b ∧ toLowerList m = p

/-- A page whose `#userName` element reads "Alice" and that also carries
a logout button next to the text "Bob Kumar": both passes would resolve. -/
def pageQ1 : String → Option String :=
  fun sel => if sel = "#userName" then some "Alice" else none

def pageIcons1 : List IconButton :=
  [⟨ "Logout", "", "", "logout-btn", [ "Bob Kumar" ]⟩]

/-- A page whose `#lblUserID` element reads "logout" (lower case). -/
def pageQLog : String → Option String :=
  fun sel => if sel = "#lblUserID" then some "logout" else none

/-- A page whose `#welcomeUser` element reads "Hi Jo". -/
def pageQJo : String → Option String :=
  fun sel => if sel = "#welcomeUser" then some "Hi Jo" else none

/-- A page with no identity markers at all. -/
def pageNone : String → Option String := fun _ => none

def sampleSession : SessionState :=
  ⟨true, [⟨Sender.user, "hello there", none⟩], some "Alice",
    WidgetPos.corner 20 20⟩

def sampleWidget : WidgetState := ⟨sampleSession, false⟩

def sampleCtx : DragCtx := ⟨0, 0, 0, 0, 800, 600, 300, 400⟩

/-- A paste whose only item is plain text, not an image file. -/
def sampleClipItems : List ClipItem := [⟨ "string", "text/plain", ""⟩]

/-! ## Helper lemmas -/

theorem matchPat_length : ∀ (p cs rest : List Char),
    matchPat p cs = some rest → rest.length + p.length = cs.length := by
  intro p
  induction p with
  | nil =>
    intro cs rest h
    simp [matchPat] at h
    simp [h]
  | cons x xs ih =>
    intro cs rest h
    cases cs with
    | nil => simp [matchPat] at h
    | cons c cs' =>
      simp only [matchPat] at h
      by_cases hc : c.toLower = x
      · rw [if_pos hc] at h
        have := ih cs' rest h
        simp [List.length_cons]
        omega
      · rw [if_neg hc] at h
        exact absurd h (by simp)

theorem tryPatterns_length : ∀ (ps : List (List Char)), (∀ p ∈ ps, p ≠ []) →
    ∀ (cs rest : List Char), tryPatterns ps cs = some rest → rest.length < cs.length := by
  intro ps
  induction ps with
  | nil => intro _ cs rest h; simp [tryPatterns] at h
  | cons p ps ih =>
    intro hne cs rest h
    simp only [tryPatterns] at h
    cases hm : matchPat p cs with
    | some r =>
      rw [hm] at h
      have hl := matchPat_length p cs r hm
      have hp : p ≠ [] := hne p (by simp)
      have hp' : 0 < p.length := List.length_pos.mpr hp
      simp at h
      subst h
      omega
    | none =>
      rw [hm] at h
      exact ih (fun q hq => hne q (by simp [hq])) cs rest h

theorem stripGreetingsAux_fuel : ∀ (f1 f2 : Nat) (l : List Char),
    l.length ≤ f1 → l.length ≤ f2 → stripGreetingsAux f1 l = stripGreetingsAux f2 l := by
  intro f1
  induction f1 with
  | zero =>
    intro f2 l h1 _
    have : l = [] := List.length_eq_zero.mp (Nat.le_zero.mp h1)
    subst this
    cases f2 <;> rfl
  | succ f ih =>
    intro f2 l h1 h2
    match l with
    | [] => cases f2 <;> rfl
    | c :: cs =>
      cases f2 with
      | zero => simp at h2
      | succ f2' =>
        simp only [stripGreetingsAux]
        cases hm : tryPatterns greetingPatterns (c :: cs) with
        | some rest =>
          have hr := tryPatterns_length greetingPatterns (by decide) (c :: cs) rest hm
          simp only [List.length_cons] at hr h1 h2
          exact ih f2' rest (by omega) (by omega)
        | none =>
          simp only [List.length_cons] at h1 h2
          rw [ih f2' cs (by omega) (by omega)]

theorem stripGreetings_nil : stripGreetings [] = [] := rfl

theorem stripGreetings_cons_pos (c : Char) (cs rest : List Char)
    (h : tryPatterns greetingPatterns (c :: cs) = some rest) :
    stripGreetings (c :: cs) = stripGreetings rest := by
  have hr := tryPatterns_length greetingPatterns (by decide) (c :: cs) rest h
  simp only [List.length_cons] at hr
  show stripGreetingsAux (cs.length + 1) (c :: cs) = _
  simp only [stripGreetingsAux, h]
  exact stripGreetingsAux_fuel cs.length rest.length rest (by omega) (le_refl _)

theorem stripGreetings_cons_neg (c : Char) (cs : List Char)
    (h : tryPatterns greetingPatterns (c :: cs) = none) :
    stripGreetings (c :: cs) = c :: stripGreetings cs := by
  show stripGreetingsAux (cs.length + 1) (c :: cs) = _
  simp only [stripGreetingsAux, h]
  rfl

theorem unescapeList_cons_ne (c : Char) (l : List Char) (h : c ≠ '&') :
    unescapeList (c :: l) = c :: unescapeList l := by
  simp [unescapeList, h]

theorem unescape_escapeChar (c : Char) (l : List Char) :
    unescapeList (escapeCharHtml c ++ l) = c :: unescapeList l := by
  by_cases h1 : c = '&'
  · subst h1; rfl
  · by_cases h2 : c = '<'
    · subst h2; rfl
    · by_cases h3 : c = '>'
      · subst h3; rfl
      · simp only [escapeCharHtml, if_neg h1, if_neg h2, if_neg h3, List.singleton_append]
        exact unescapeList_cons_ne c l h1

theorem unescape_escapeList (cs : List Char) : unescapeList (escapeList cs) = cs := by
  induction cs with
  | nil => rfl
  | cons c cs ih =>
    show unescapeList (escapeCharHtml c ++ escapeList cs) = c :: cs
    rw [unescape_escapeChar, ih]

theorem escapeChar_no_lt (c : Char) : '<' ∉ escapeCharHtml c := by
  by_cases h1 : c = '&'
  · subst h1; decide
  · by_cases h2 : c = '<'
    · subst h2; decide
    · by_cases h3 : c = '>'
      · subst h3; decide
      · simp [escapeCharHtml, h1, h2, h3]
        exact fun hx => h2 hx.symm

theorem escapeList_no_lt (cs : List Char) : '<' ∉ escapeList cs := by
  induction cs with
  | nil => simp [escapeList]
  | cons c cs ih =>
    show '<' ∉ escapeCharHtml c ++ escapeList cs
    simp only [List.mem_append]
    exact fun hx => hx.elim (escapeChar_no_lt c) ih

theorem matchPat_of_lower : ∀ (m b : List Char),
    matchPat (toLowerList m) (m ++ b) = some b := by
  intro m
  induction m with
  | nil => intro b; rfl
  | cons c m ih =>
    intro b
    show matchPat (c.toLower :: toLowerList m) (c :: (m ++ b)) = some b
    simp only [matchPat, if_pos rfl]
    exact ih b

theorem tryPatterns_ne_none_of_mem : ∀ (ps : List (List Char)) (l r p : List Char),
    p ∈ ps → matchPat p l = some r → tryPatterns ps l ≠ none := by
  intro ps
  induction ps with
  | nil => intro l r p hp _; simp at hp
  | cons p' ps ih =>
    intro l r p hp hm
    simp only [tryPatterns]
    cases hm' : matchPat p' l with
    | some _ => simp
    | none =>
      rcases List.mem_cons.mp hp with h | h
      · subst h; rw [hm] at hm'; exact absurd hm' (by simp)
      · exact ih l r p h hm

theorem matchPat_decomp : ∀ (p l r : List Char), matchPat p l = some r →
    ∃ m : List Char, l = m ++ r ∧ toLowerList m = p := by
  intro p
  induction p with
  | nil =>
    intro l r h
    simp only [matchPat, Option.some.injEq] at h
    exact ⟨[], by simp [h], rfl⟩
  | cons x xs ih =>
    intro l r h
    cases l with
    | nil => simp [matchPat] at h
    | cons c cs =>
      simp only [matchPat] at h
      by_cases hc : c.toLower = x
      · rw [if_pos hc] at h
        obtain ⟨m, hm1, hm2⟩ := ih cs r h
        exact ⟨c :: m, by simp [hm1], by simp [toLowerList] at hm2 ⊢; exact ⟨hc, hm2⟩⟩
      · rw [if_neg hc] at h
        exact absurd h (by simp)

theorem tryPatterns_decomp : ∀ (ps : List (List Char)) (l r : List Char),
    tryPatterns ps l = some r →
    ∃ p ∈ ps, ∃ m : List Char, l = m ++ r ∧ toLowerList m = p := by
  intro ps
  induction ps with
  | nil => intro l r h; simp [tryPatterns] at h
  | cons p' ps ih =>
    intro l r h
    simp only [tryPatterns] at h
    cases hm : matchPat p' l with
    | some r' =>
      rw [hm] at h
      simp only [Option.some.injEq] at h
      subst h
      obtain ⟨m, h1, h2⟩ := matchPat_decomp p' l r' hm
      exact ⟨p', by simp, m, h1, h2⟩
    | none =>
      rw [hm] at h
      obtain ⟨p, hp, m, h1, h2⟩ := ih l r h
      exact ⟨p, by simp [hp], m, h1, h2⟩

theorem occurrence_ne_nil (l : List Char) (h : HasGreetingOccurrence l) :
    l ≠ [] := by
  obtain ⟨p, hp, a, m, b, heq, hlm⟩ := h
  have hpne : p ≠ [] := by
    have hall : ∀ x ∈ greetingPatterns, x ≠ [] := by decide
    exact hall p hp
  have hmne : m ≠ [] := by
    intro hm
    subst hm
    exact hpne hlm.symm
  intro hnil
  rw [hnil] at heq
  have := congrArg List.length heq
  simp at this
  exact hmne (List.length_eq_zero.mp (by omega))

theorem stripGreetings_length_le : ∀ (n : Nat) (l : List Char), l.length ≤ n →
    (stripGreetings l).length ≤ l.length := by
  intro n
  induction n with
  | zero =>
    intro l h1
    have : l = [] := List.length_eq_zero.mp (Nat.le_zero.mp h1)
    subst this
    simp [stripGreetings_nil]
  | succ n ih =>
    intro l h1
    cases l with
    | nil => simp [stripGreetings_nil]
    | cons c cs =>
      cases hm : tryPatterns greetingPatterns (c :: cs) with
      | some rest =>
        rw [stripGreetings_cons_pos c cs rest hm]
        have hr := tryPatterns_length greetingPatterns (by decide) _ _ hm
        have h2 := ih rest (by simp at h1 hr; omega)
        simp only [List.length_cons] at hr ⊢
        omega
      | none =>
        rw [stripGreetings_cons_neg c cs hm]
        have h2 := ih cs (by simp at h1; omega)
        simp only [List.length_cons]
        omega

theorem stripGreetings_shrinks_aux : ∀ (n : Nat) (l : List Char), l.length ≤ n →
    HasGreetingOccurrence l → (stripGreetings l).length < l.length := by
  intro n
  induction n with
  | zero =>
    intro l h1 hocc
    have : l = [] := List.length_eq_zero.mp (Nat.le_zero.mp h1)
    exact absurd this (occurrence_ne_nil l hocc)
  | succ n ih =>
    intro l h1 hocc
    cases l with
    | nil => exact absurd rfl (occurrence_ne_nil [] hocc)
    | cons c cs =>
      cases hm : tryPatterns greetingPatterns (c :: cs) with
      | some rest =>
        rw [stripGreetings_cons_pos c cs rest hm]
        have hr := tryPatterns_length greetingPatterns (by decide) _ _ hm
        have h2 := stripGreetings_length_le rest.length rest (le_refl _)
        omega
      | none =>
        rw [stripGreetings_cons_neg c cs hm]
        obtain ⟨p, hp, a, m, b, heq, hlm⟩ := hocc
        cases a with
        | nil =>
          exfalso
          simp only [List.nil_append] at heq
          have hmp : matchPat p (m ++ b) = some b := by
            rw [← hlm]; exact matchPat_of_lower m b
          exact tryPatterns_ne_none_of_mem greetingPatterns (c :: cs) b p hp
            (by rw [heq]; exact hmp) hm
        | cons a0 a' =>
          have hc : c = a0 ∧ cs = a' ++ m ++ b := by
            simp only [List.cons_append, List.cons.injEq] at heq
            exact heq
          have hocc' : HasGreetingOccurrence cs := ⟨p, hp, a', m, b, hc.2, hlm⟩
          have h2 := ih cs (by simp at h1; omega) hocc'
          simp only [List.length_cons]
          omega

theorem stripGreetings_of_no_occ_aux : ∀ (n : Nat) (l : List Char), l.length ≤ n →
    ¬ HasGreetingOccurrence l → stripGreetings l = l := by
  intro n
  induction n with
  | zero =>
    intro l h1 _
    have : l = [] := List.length_eq_zero.mp (Nat.le_zero.mp h1)
    subst this
    exact stripGreetings_nil
  | succ n ih =>
    intro l h1 hno
    cases l with
    | nil => exact stripGreetings_nil
    | cons c cs =>
      cases hm : tryPatterns greetingPatterns (c :: cs) with
      | some rest =>
        exfalso
        obtain ⟨p, hp, m, hdec, hlm⟩ := tryPatterns_decomp greetingPatterns _ _ hm
        exact hno ⟨p, hp, [], m, rest, by simpa using hdec, hlm⟩
      | none =>
        rw [stripGreetings_cons_neg c cs hm]
        have hno' : ¬ HasGreetingOccurrence cs := by
          intro hocc
          obtain ⟨p, hp, a, m, b, heq, hlm⟩ := hocc
          exact hno ⟨p, hp, c :: a, m, b, by simp [heq], hlm⟩
        rw [ih cs (by simp at h1; omega) hno']

theorem selectorScan_append (q : String → Option String) :
    ∀ (pre post : List String),
    (∀ s ∈ pre, selectorResolveAt q s = none) →
    selectorScan q (pre ++ post) = selectorScan q post := by
  intro pre
  induction pre with
  | nil => intro post _; rfl
  | cons s pre ih =>
    intro post hpre
    simp only [List.cons_append, selectorScan]
    rw [hpre s (by simp)]
    exact ih post (fun x hx => hpre x (by simp [hx]))

theorem detStep_failing_muts : ∀ (muts : List DetEvent),
    (∀ e ∈ muts, ∃ q icons, e = DetEvent.mutation q icons ∧
      detectUserOnPage q icons = none) →
    muts.foldl detStep ⟨none, true, 0⟩ = ⟨none, true, 0⟩ := by
  intro muts
  induction muts with
  | nil => intro _; rfl
  | cons e es ih =>
    intro h
    obtain ⟨q, icons, he, hd⟩ := h e (by simp)
    subst he
    rw [List.foldl_cons]
    have hstep : detStep ⟨none, true, 0⟩ (DetEvent.mutation q icons) =
        ⟨none, true, 0⟩ := by
      simp [detStep, hd]
    rw [hstep]
    exact ih (fun x hx => h x (by simp [hx]))

theorem dragHandler_bounds (ctx : DragCtx) (hW : ctx.elWidth ≤ ctx.innerWidth)
    (hH : ctx.elHeight ≤ ctx.innerHeight) (x y : Int) :
    0 ≤ (dragHandler ctx x y).1.1 ∧
    (dragHandler ctx x y).1.1 ≤ ctx.innerWidth - ctx.elWidth ∧
    0 ≤ (dragHandler ctx x y).1.2 ∧
    (dragHandler ctx x y).1.2 ≤ ctx.innerHeight - ctx.elHeight := by
  unfold dragHandler
  refine ⟨le_min (le_max_left 0 _) (by omega), min_le_right _ _,
    le_min (le_max_left 0 _) (by omega), min_le_right _ _⟩

theorem dragFold_pos_mem (ctx : DragCtx) (moves : List (Int × Int)) :
    ∀ (init : (Int × Int) × List SessionState), moves ≠ [] →
    ∃ mv ∈ moves,
      (moves.foldl (dragFoldStep ctx) init).1 = (dragHandler ctx mv.1 mv.2).1 := by
  induction moves with
  | nil => intro init h; exact absurd rfl h
  | cons m ms ih =>
    intro init _
    by_cases hms : ms = []
    · subst hms
      exact ⟨m, by simp, rfl⟩
    · obtain ⟨mv, hmem, heq⟩ := ih (dragFoldStep ctx init m) hms
      exact ⟨mv, List.mem_cons_of_mem m hmem, heq⟩

theorem dragFold_writes (ctx : DragCtx) :
    ∀ (moves : List (Int × Int)) (acc : (Int × Int) × List SessionState),
    (moves.foldl (dragFoldStep ctx) acc).2 = acc.2 := by
  intro moves
  induction moves with
  | nil => intro acc; rfl
  | cons m ms ih =>
    intro acc
    rw [List.foldl_cons, ih]
    simp [dragFoldStep, dragHandler]

theorem paste_fold_id : ∀ (items : List ClipItem) (pending : Option String),
    (∀ it ∈ items, isImageItem it = false) →
    items.foldl (fun p it => if isImageItem it then some it.asDataUri else p)
      pending = pending := by
  intro items
  induction items with
  | nil => intro p _; rfl
  | cons it its ih =>
    intro p h
    rw [List.foldl_cons]
    have hit : isImageItem it = false := h it (by simp)
    simp only [hit, Bool.false_eq_true, if_false]
    exact ih p (fun x hx => h x (by simp [hx]))

/-! ## The claims -/

/-- C2: for every user-authored message text, the renderer escapes the
text before insertion (`renderUserText` wraps `escapeHtml`), the escaped
output contains no raw `<` (so nothing in it can parse as a tag), and
the HTML text-node parse of the escaped output is exactly the original
text — in particular `<b>hi</b>` renders as its literal characters, not
as markup. -/
theorem user_text_escaped_literal :
    (∀ s : String, unescapeHtml (escapeHtml s) = s) ∧
    (∀ s : String, '<' ∉ (escapeHtml s).data) ∧
    renderUserText "<b>hi</b>" = "<div>&lt;b&gt;hi&lt;/b&gt;</div>" ∧
    unescapeHtml (escapeHtml "<b>hi</b>") = "<b>hi</b>" := by
  have h1 : ∀ s : String, unescapeHtml (escapeHtml s) = s := by
    intro s
    cases s with
    | mk l => exact congrArg String.mk (unescape_escapeList l)
  exact ⟨h1, fun s => escapeList_no_lt s.data, by decide, h1 "<b>hi</b>"⟩

/-- C3 (amended): in the selector pass, the first selector whose element
exists, has raw trimmed text of length > 2, and whose cleaned text is
non-empty and does not contain the case-sensitive substring "Log",
resolves the identity to that cleaned text immediately — regardless of
what the heuristic pass would say; and an element whose cleaned text
contains "Log" in exactly that capitalization never resolves, whatever
its raw text.  (The claim's case-insensitive "log" exclusion and its
length check on the cleaned text are refuted by
`selector_log_filter_counterexample`.) -/
theorem selector_first_match_amended (q : String → Option String)
    (pre post : List String) (sel : String) (t : String)
    (icons : List IconButton)
    (hpre : ∀ s ∈ pre, selectorResolveAt q s = none)
    (hq : q sel = some t)
    (hlen : 2 < (trimString t).length)
    (hname : cleanName t ≠ "")
    (hlog : containsStr (cleanName t) "Log" = false) :
    selectorScan q (pre ++ sel :: post) = some (cleanName t) ∧
    (pre ++ sel :: post = selectors →
      detectUserOnPage q icons = some (cleanName t)) ∧
    (∀ t' : String, containsStr (cleanName t') "Log" = true →
      selectorElementResolves t' = none) := by
  have hres : selectorResolveAt q sel = some (cleanName t) := by
    simp only [selectorResolveAt, hq, selectorElementResolves, if_pos hlen]
    simp [bne_iff_ne, hname, hlog]
  have hscan : selectorScan q (pre ++ sel :: post) = some (cleanName t) := by
    rw [selectorScan_append q pre (sel :: post) hpre]
    simp only [selectorScan, hres]
  refine ⟨hscan, fun hsel => ?_, fun t' hlog' => ?_⟩
  · unfold detectUserOnPage
    rw [← hsel, hscan]
  · unfold selectorElementResolves
    by_cases hl : 2 < (trimString t').length
    · rw [if_pos hl]
      simp [hlog']
    · rw [if_neg hl]

theorem selector_first_match_amended_witness :
    selectorScan pageQ1 selectors = some "Alice" ∧
    containsStr (cleanName "Logout") "Log" = true ∧
    selectorElementResolves "Logout" = none :=
  have h := selector_first_match_amended pageQ1 [ "#lblUserID", "#lblUserName" ]
    [ ".user-name", ".profile-name", "span[id*=\"user\"]", "span[class*=\"user\"]",
      "#welcomeUser", ".header-user", ".login-name", "a[href*=\"profile\"]",
      ".logged-in-user"] "#userName" "Alice" []
    (by decide) (by decide) (by decide) (by decide) (by decide)
  ⟨h.1, by decide, h.2.2 "Logout" (by decide)⟩

/-- C3 counterexample: an element whose cleaned text is "logout" — which
contains the case-insensitive substring "log" — resolves the identity,
because the code checks `name.includes('Log')` case-sensitively; and an
element reading "Hi Jo" resolves to the cleaned text "Jo" of length 2,
because the `> 2` length check is applied to the raw trimmed text, not
to the cleaned text. -/
theorem selector_log_filter_counterexample :
    containsCI "logout" "log" = true ∧
    cleanName "logout" = "logout" ∧
    detectUserOnPage pageQLog [] = some "logout" ∧
    cleanName "Hi Jo" = "Jo" ∧
    ¬ 2 < (cleanName "Hi Jo").length ∧
    detectUserOnPage pageQJo [] = some "Jo" := by
  decide

/-- C5: whenever the selector pass and the heuristic pass would each
independently resolve an identity, a single detection run returns the
selector-pass result. -/
theorem selector_pass_wins (q : String → Option String)
    (icons : List IconButton) (n m : String)
    (hs : selectorScan q selectors = some n)
    (_hh : heuristicScan icons = some m) :
    detectUserOnPage q icons = some n := by
  unfold detectUserOnPage
  rw [hs]

theorem selector_pass_wins_witness :
    detectUserOnPage pageQ1 pageIcons1 = some "Alice" ∧
    heuristicScan pageIcons1 = some "Bob Kumar" :=
  ⟨selector_pass_wins pageQ1 pageIcons1 "Alice" "Bob Kumar"
    (by decide) (by decide), by decide⟩

/-- C10: name cleaning removes the case-insensitive greeting/honorific
occurrences anywhere in the string and then trims: an input containing
any occurrence is strictly shortened before trimming, an input with no
occurrence is only trimmed, and the "hi" inside "Sachin" is removed, so
a detected identity may be an altered form of the name on the page. -/
theorem cleanName_removes_occurrences (s : String)
    (hocc : HasGreetingOccurrence s.data) :
    (stripGreetings s.data).length < s.data.length ∧
    (∀ t : String, ¬ HasGreetingOccurrence t.data → cleanName t = trimString t) ∧
    cleanName "Sachin" = "Sacn" ∧
    cleanName "  Welcome Mr. Kumar  " = "Kumar" := by
  refine ⟨stripGreetings_shrinks_aux s.data.length s.data (le_refl _) hocc,
    ?_, by decide, by decide⟩
  intro t ht
  unfold cleanName trimString
  rw [stripGreetings_of_no_occ_aux t.data.length t.data (le_refl _) ht]

theorem cleanName_removes_occurrences_witness :
    (stripGreetings "Sachin".data).length < "Sachin".data.length ∧
    cleanName "Sachin" = "Sacn" :=
  have h := cleanName_removes_occurrences "Sachin"
    ⟨ "hi".data, by decide, "Sac".data, "hi".data, "n".data, by decide, by decide⟩
  ⟨h.1, h.2.2.1⟩

/-- C4: on a page where no pass ever resolves an identity — the initial
synchronous run fails and every mutation-triggered re-run fails — the
run resolves to "Guest" exactly once (one `handleLogin` call), exactly
at the timeout event, whose delay is the fixed 5000 ms; and the observer
is disconnected at that point. -/
theorem guest_fallback_on_timeout (q0 : String → Option String)
    (icons0 : List IconButton) (muts : List DetEvent)
    (h0 : detectUserOnPage q0 icons0 = none)
    (hm : ∀ e ∈ muts, ∃ q icons, e = DetEvent.mutation q icons ∧
      detectUserOnPage q icons = none) :
    runDetection q0 icons0 (muts ++ [DetEvent.timeout]) =
      ⟨some "Guest", false, 1⟩ ∧
    (∀ pfx : List DetEvent, pfx <+: muts →
      (runDetection q0 icons0 pfx).user = none) ∧
    detectionTimeoutMs = 5000 := by
  have hstart : startDetection q0 icons0 = ⟨none, true, 0⟩ := by
    unfold startDetection
    rw [h0]
  refine ⟨?_, ?_, rfl⟩
  · unfold runDetection
    rw [List.foldl_append, hstart, detStep_failing_muts muts hm]
    rfl
  · intro pfx hpfx
    obtain ⟨rest, hrest⟩ := hpfx
    unfold runDetection
    rw [hstart, detStep_failing_muts pfx
      (fun e he => hm e (by rw [← hrest]; exact List.mem_append_left rest he))]

theorem guest_fallback_on_timeout_witness :
    runDetection pageNone [] [DetEvent.mutation pageNone [], DetEvent.timeout] =
      ⟨some "Guest", false, 1⟩ :=
  (guest_fallback_on_timeout pageNone [] [DetEvent.mutation pageNone []]
    (by decide)
    (fun e he => ⟨pageNone, [], by simpa using he, by decide⟩)).1

/-- C6: logout, from any state, empties the message log, unsets the
identity and re-enters the detector's scanning state; and among the
state-mutating operations, logout is the only one that takes a non-empty
session to the empty session. -/
theorem logout_resets_session :
    (∀ st : WidgetState,
      emptySession (applyOp st Op.logout).session ∧
      (applyOp st Op.logout).scanning = true) ∧
    (∀ (st : WidgetState) (op : Op),
      ¬ emptySession st.session → emptySession (applyOp st op).session →
      op = Op.logout) := by
  constructor
  · intro st
    exact ⟨⟨rfl, rfl⟩, rfl⟩
  · intro st op hne hempty
    cases op with
    | login name => exact absurd hempty.2 (by simp [applyOp])
    | logout => rfl
    | pushMessage m => exact absurd hempty.1 (by simp [applyOp])
    | toggle => exact absurd hempty hne
    | setPosition p => exact absurd hempty hne

theorem logout_resets_session_witness :
    Op.logout = Op.logout ∧
    emptySession (applyOp sampleWidget Op.logout).session :=
  ⟨logout_resets_session.2 sampleWidget Op.logout (by decide) (by decide),
   (logout_resets_session.1 sampleWidget).1⟩

/-- C7: for a widget that fits inside the viewport, every position a
move event computes is clamped on both axes to
`[0, window size − element size]`, and after any non-empty drag sequence
the persisted position is absolute `top`/`left` offsets within those
bounds. -/
theorem drag_offsets_clamped (ctx : DragCtx) (pos0 : Int × Int)
    (st : SessionState) (moves : List (Int × Int))
    (hW : ctx.elWidth ≤ ctx.innerWidth) (hH : ctx.elHeight ≤ ctx.innerHeight)
    (hne : moves ≠ []) :
    (∀ mv ∈ moves,
      0 ≤ (dragHandler ctx mv.1 mv.2).1.1 ∧
      (dragHandler ctx mv.1 mv.2).1.1 ≤ ctx.innerWidth - ctx.elWidth ∧
      0 ≤ (dragHandler ctx mv.1 mv.2).1.2 ∧
      (dragHandler ctx mv.1 mv.2).1.2 ≤ ctx.innerHeight - ctx.elHeight) ∧
    ((runDrag ctx pos0 st moves).1.position =
      WidgetPos.absolute (moves.foldl (dragFoldStep ctx) (pos0, [])).1.2
        (moves.foldl (dragFoldStep ctx) (pos0, [])).1.1 ∧
      0 ≤ (moves.foldl (dragFoldStep ctx) (pos0, [])).1.1 ∧
      (moves.foldl (dragFoldStep ctx) (pos0, [])).1.1 ≤
        ctx.innerWidth - ctx.elWidth ∧
      0 ≤ (moves.foldl (dragFoldStep ctx) (pos0, [])).1.2 ∧
      (moves.foldl (dragFoldStep ctx) (pos0, [])).1.2 ≤
        ctx.innerHeight - ctx.elHeight) := by
  refine ⟨fun mv _ => dragHandler_bounds ctx hW hH mv.1 mv.2, rfl, ?_⟩
  obtain ⟨mv, _, heq⟩ := dragFold_pos_mem ctx moves (pos0, []) hne
  rw [heq]
  have hb := dragHandler_bounds ctx hW hH mv.1 mv.2
  exact ⟨hb.1, hb.2.1, hb.2.2.1, hb.2.2.2⟩

theorem drag_offsets_clamped_witness :
    (runDrag sampleCtx (0, 0) sampleSession [(1000, -50)]).1.position =
      WidgetPos.absolute 0 500 ∧
    0 ≤ (500 : Int) ∧ (500 : Int) ≤ 800 - 300 ∧
    0 ≤ (0 : Int) ∧ (0 : Int) ≤ 600 - 400 :=
  (drag_offsets_clamped sampleCtx (0, 0) sampleSession [(1000, -50)]
    (by decide) (by decide) (by decide)).2

/-- C8: move events during a drag emit no StateStore write; the whole
gesture emits exactly one write, at release, and that write is the prior
state with only the position replaced — messages, user and isOpen are
unchanged. -/
theorem drag_persists_only_on_release (ctx : DragCtx) (pos0 : Int × Int)
    (st : SessionState) (moves : List (Int × Int)) :
    (∀ x y : Int, (dragHandler ctx x y).2 = []) ∧
    (runDrag ctx pos0 st moves).2 = [(runDrag ctx pos0 st moves).1] ∧
    (runDrag ctx pos0 st moves).1.messages = st.messages ∧
    (runDrag ctx pos0 st moves).1.user = st.user ∧
    (runDrag ctx pos0 st moves).1.isOpen = st.isOpen := by
  refine ⟨fun x y => rfl, ?_, rfl, rfl, rfl⟩
  show (moves.foldl (dragFoldStep ctx) (pos0, [])).2 ++ _ = _
  rw [dragFold_writes ctx moves (pos0, [])]
  rfl

/-- C9: a paste whose items contain no image-typed file leaves the
pending attachment unchanged and produces no visible error; whereas the
other failure paths — a transport error and a `success=false` reply —
each append a visible entry to the messages container. -/
theorem paste_non_image_silent (items : List ClipItem)
    (pending : Option String)
    (h : ∀ it ∈ items, isImageItem it = false) :
    handlePaste items pending = (pending, false) ∧
    (∀ (u : String) (msgs : List Message) (pend : Option String)
      (input r : String), trimString input ≠ "" →
      (sendMessage (some u) msgs pend input FetchOutcome.netError).rendered ≠ [] ∧
      (sendMessage (some u) msgs pend input
        (FetchOutcome.reply false r)).rendered ≠ []) := by
  constructor
  · unfold handlePaste
    rw [paste_fold_id items pending h]
  · intro u msgs pend input r hin
    have hcond : ¬(trimString input = "" ∧ pend = none) := fun hc => hin hc.1
    constructor
    · simp only [sendMessage, if_neg hcond]
      simp
    · simp only [sendMessage, if_neg hcond]
      simp

theorem paste_non_image_silent_witness :
    handlePaste sampleClipItems (some "img") = (some "img", false) ∧
    (sendMessage (some "Alice") [] none "ping" FetchOutcome.netError).rendered ≠ [] :=
  have h := paste_non_image_silent sampleClipItems (some "img") (by decide)
  ⟨h.1, (h.2 "Alice" [] none "ping" "x" (by decide)).1⟩

/-- C1 (amended): on a network error the send renders a distinctly
marked inline error (the `tn-error-message` node) and persists nothing
beyond the user's own message; on a `success=false` reply it instead
appends — both to the DOM and to the persisted log — a plain bot message
with the fixed text "Sorry, I encountered an error. Please try again.";
in neither case is the backend response appended as a success message. -/
theorem send_error_paths_amended (u : String) (msgs : List Message)
    (pending : Option String) (input r : String)
    (hguard : ¬(trimString input = "" ∧ pending = none)) :
    (sendMessage (some u) msgs pending input FetchOutcome.netError).messages =
      msgs ++ [⟨Sender.user, trimString input, pending⟩] ∧
    (sendMessage (some u) msgs pending input FetchOutcome.netError).rendered =
      [⟨true, false, trimString input⟩, ⟨false, true, netErrorHtml⟩] ∧
    (sendMessage (some u) msgs pending input
        (FetchOutcome.reply false r)).messages =
      msgs ++ [⟨Sender.user, trimString input, pending⟩,
        ⟨Sender.bot, errorReplyText, none⟩] ∧
    (sendMessage (some u) msgs pending input
        (FetchOutcome.reply false r)).rendered =
      [⟨true, false, trimString input⟩, ⟨false, false, errorReplyText⟩] := by
  refine ⟨?_, ?_, ?_, ?_⟩ <;>
    simp only [sendMessage, if_neg hguard] <;>
    simp [List.append_assoc]

theorem send_error_paths_amended_witness :
    (sendMessage (some "Alice") [] none "help" FetchOutcome.netError).rendered =
      [⟨true, false, "help"⟩, ⟨false, true, netErrorHtml⟩] ∧
    (sendMessage (some "Alice") [] none "help"
        (FetchOutcome.reply false "x")).messages =
      [⟨Sender.user, "help", none⟩, ⟨Sender.bot, errorReplyText, none⟩] :=
  have h := send_error_paths_amended "Alice" [] none "help" "x" (by decide)
  ⟨h.2.1, h.2.2.1⟩

/-- C1 counterexample: at a concrete send, the network-error path and the
`success=false` path do not produce the same presentation: the first
appends an error-classed DOM node and persists no bot entry, the second
appends a plain (non-error-classed) bot message that is persisted in the
message log. -/
theorem send_error_paths_differ :
    ((sendMessage (some "Guest") [] none "test"
        FetchOutcome.netError).rendered.getLast?.map DomEntry.isError) =
      some true ∧
    ((sendMessage (some "Guest") [] none "test"
        (FetchOutcome.reply false "oops")).rendered.getLast?.map
        DomEntry.isError) = some false ∧
    (sendMessage (some "Guest") [] none "test" FetchOutcome.netError).messages =
      [⟨Sender.user, "test", none⟩] ∧
    (sendMessage (some "Guest") [] none "test"
        (FetchOutcome.reply false "oops")).messages =
      [⟨Sender.user, "test", none⟩, ⟨Sender.bot, errorReplyText, none⟩] := by
  decide

end Chatbot
